import Mathlib

/-!
Verification of the repopo core engine (crates/core): the policy compiler,
the result model, the check orchestrator (`run_check`), the sidecar IPC
envelope and data parsing, and the QuickJS batch-call event-loop drain.

The Rust source is embedded shallowly:
- `serde_json::Value` becomes the inductive `JsonVal`;
- fallible Rust functions returning `anyhow::Result` become `Except String`,
  with `anyhow`'s `with_context` modelled as prefixing the context message;
- the `regex` crate is abstracted as a `RegexEngine` (a validity predicate on
  Rust pattern strings plus a matching predicate); `compile_js_regex` builds
  the Rust pattern string exactly as the source does, prefixing the
  case-insensitivity marker `(?i)` when the JS flag string contains `i`;
- the execution backend (sidecar / QuickJS) is abstracted as a `Backend`
  record of the two batch calls, since `run_check` is polymorphic over it.
-/

set_option autoImplicit false

namespace Repopo

/-- A JSON value, embedding `serde_json::Value`. -/
inductive JsonVal where
  | null
  | bool (b : Bool)
  | num (n : Int)
  | str (s : String)
  | arr (elems : List JsonVal)
  | obj (fields : List (String × JsonVal))

/-- Embeds `serde_json::Value::is_boolean`. -/
def JsonVal.isBool : JsonVal → Bool
  | JsonVal.bool _ => true
  | _ => false

/-- Policy metadata (`types.rs`, `PolicyMeta`). -/
structure PolicyMeta where
  name : String
  description : String
  match_pattern : String
  match_flags : String
  has_resolver : Bool
  exclude_files : List String
deriving DecidableEq, Repr

/-- A policy error result from a handler (`types.rs`, `PolicyErrorResult`). -/
structure PolicyErrorResult where
  error : Option String
  error_messages : Option (List String)
  name : Option String
  file : Option String
  fixable : Option Bool
  fixed : Option Bool
  manual_fix : Option String
deriving DecidableEq, Repr

/-- The result of running a policy handler (`types.rs`, `HandlerResult`). -/
inductive HandlerResult where
  | Pass (b : Bool)
  | Failure (err : PolicyErrorResult)
deriving DecidableEq, Repr

/-- Embeds `HandlerResult::is_pass`. -/
def HandlerResult.is_pass : HandlerResult → Bool
  | HandlerResult.Pass true => true
  | _ => false

/-- Embeds `HandlerResult::is_fixed`. -/
def HandlerResult.is_fixed : HandlerResult → Bool
  | HandlerResult.Failure err => err.fixed == some true
  | _ => false

/-- Embeds `HandlerResult::is_fix_failed`. -/
def HandlerResult.is_fix_failed : HandlerResult → Bool
  | HandlerResult.Failure err => err.fixed == some false
  | _ => false

/-- Embeds `HandlerResult::is_fixable`. -/
def HandlerResult.is_fixable : HandlerResult → Bool
  | HandlerResult.Failure err => err.fixable == some true
  | _ => false

/-- Embeds `HandlerResult::error_message`. -/
def HandlerResult.error_message : HandlerResult → Option String
  | HandlerResult.Pass _ => none
  | HandlerResult.Failure err =>
    match err.error with
    | some msg => some msg
    | none =>
      match err.error_messages with
      | some msgs => if msgs.isEmpty then none else some (String.intercalate "; " msgs)
      | none => none

/-- A failure item in the compact batch response (`types.rs`,
`CompactBatchFailureItem`). -/
structure CompactBatchFailureItem where
  file : String
  error : Option String
  error_messages : Option (List String)
  fixable : Option Bool
  fixed : Option Bool
  manual_fix : Option String
deriving DecidableEq, Repr

/-- Compact response payload for batch handler/resolver calls (`types.rs`,
`CompactBatchResponse`). -/
structure CompactBatchResponse where
  pass : List String
  fail : List CompactBatchFailureItem
deriving DecidableEq, Repr

/-- The IPC response envelope (`types.rs`, `IpcResponse`). -/
structure IpcResponse where
  ok : Bool
  error : Option String
  data : Option JsonVal

/-- Embeds `expand_compact_response` (`quickjs_runtime.rs`; the identical code
also appears as `Sidecar::expand_compact_response` in `ipc.rs`): passing files
become `Pass(true)`, failure items become `Failure` with the legacy
`name`/`file` fields unset. -/
def expand_compact_response (batch : CompactBatchResponse) :
    List (String × HandlerResult) :=
  batch.pass.map (fun file => (file, HandlerResult.Pass true)) ++
    batch.fail.map (fun item =>
      (item.file, HandlerResult.Failure
        { error := item.error
          error_messages := item.error_messages
          name := none
          file := none
          fixable := item.fixable
          fixed := item.fixed
          manual_fix := item.manual_fix }))

/-- Modelled from the spec: re-compacting a `(file, HandlerResult)` list back
into the compact wire shape, used only to state the round-trip property of
§4.4 — passes go to the `pass` list, failures to the `fail` list with their
fields copied over. -/
def recompact (results : List (String × HandlerResult)) : CompactBatchResponse :=
  { pass := (results.filter (fun fr => fr.2.is_pass)).map (fun fr => fr.1)
    fail := results.filterMap (fun fr =>
      match fr.2 with
      | HandlerResult.Failure e =>
        some { file := fr.1
               error := e.error
               error_messages := e.error_messages
               fixable := e.fixable
               fixed := e.fixed
               manual_fix := e.manual_fix }
      | _ => none) }

/-- Models `anyhow`'s `with_context`: a context message is prefixed onto the
error it wraps, separated by a colon, as in `anyhow`'s alternate display. -/
def withContext {α : Type} (msg : String) : Except String α → Except String α
  | Except.ok a => Except.ok a
  | Except.error e => Except.error (msg ++ ": " ++ e)

/-- Models `Iterator::collect::<Result<Vec<_>>>`: map a fallible function over
a list, stopping at the first error. -/
def mapExcept {α β : Type} (f : α → Except String β) : List α → Except String (List β)
  | [] => Except.ok []
  | a :: as => do
    let b ← f a
    let bs ← mapExcept f as
    Except.ok (b :: bs)

/-- An abstraction of the Rust `regex` crate: which Rust pattern strings
compile (`Regex::new` succeeds), and what a compiled pattern matches
(`Regex::is_match`). The engine itself compiles a compiled regex down to the
Rust pattern string it was built from, so a compiled matcher is represented by
that string. -/
structure RegexEngine where
  valid : String → Bool
  is_match : String → String → Bool

/-- The error message `compile_js_regex` attaches (`engine.rs` line 122). -/
def regexErrMsg (pattern flags : String) : String :=
  "Failed to compile regex pattern: " ++ pattern ++ " (flags: " ++ flags ++ ")"

/-- Embeds `compile_js_regex` (`engine.rs` lines 112-123): build a Rust regex
from a JS pattern and flag string. The only recognized flag is `i` (Rust's
`flags.contains('i')`, taken here on the character list), which is translated
to the `(?i)` case-insensitivity prefix; the result is the Rust pattern
string handed to `Regex::new`. -/
def compile_js_regex (E : RegexEngine) (pattern flags : String) : Except String String :=
  let case_insensitive := flags.data.contains 'i'
  let rust_pattern := if case_insensitive then "(?i)" ++ pattern else pattern
  if E.valid rust_pattern then Except.ok rust_pattern
  else Except.error (regexErrMsg pattern flags)

/-- A compiled policy ready for matching (`engine.rs`, `CompiledPolicy`). -/
structure CompiledPolicy where
  meta : PolicyMeta
  match_regex : String
  exclude_regexes : List String
deriving DecidableEq, Repr

/-- The config supplied by the loader (`types.rs`, `LoadConfigResponse`). -/
structure LoadConfigResponse where
  policies : List PolicyMeta
  exclude_files : List String
deriving DecidableEq, Repr

/-- The context message for a failing per-policy exclude list
(`engine.rs` lines 137-142). -/
def excludeErrMsg (name : String) : String :=
  "Failed to compile exclude patterns for policy \x27" ++ name ++ "\x27"

/-- The context message for a failing global exclude list
(`engine.rs` line 156). -/
def globalExcludeErrMsg : String := "Failed to compile global exclude patterns"

/-- The body of the per-policy loop of `compile_policies` (`engine.rs`
lines 129-149): compile the match pattern with the declared flags, then the
policy's own exclude patterns always with flags `"i"`. -/
def compile_policy (E : RegexEngine) (meta : PolicyMeta) : Except String CompiledPolicy := do
  let mr ← compile_js_regex E meta.match_pattern meta.match_flags
  let ers ← withContext (excludeErrMsg meta.name)
    (mapExcept (fun pattern => compile_js_regex E pattern "i") meta.exclude_files)
  Except.ok { meta := meta, match_regex := mr, exclude_regexes := ers }

/-- Embeds `compile_policies` (`engine.rs` lines 126-158): compile every
policy, then the global exclude list, again always with flags `"i"`. -/
def compile_policies (E : RegexEngine) (config : LoadConfigResponse) :
    Except String (List CompiledPolicy × List String) := do
  let compiled ← mapExcept (compile_policy E) config.policies
  let globals ← withContext globalExcludeErrMsg
    (mapExcept (fun pattern => compile_js_regex E pattern "i") config.exclude_files)
  Except.ok (compiled, globals)

/-- The eligible file set (`engine.rs` lines 186-200): drop empty paths and
paths matching any compiled global exclude. -/
def eligible_files (E : RegexEngine) (global_excludes : List String)
    (files : List String) : List String :=
  files.filter (fun f =>
    !f.isEmpty && !(global_excludes.any (fun re => E.is_match re f)))

/-- The matching subset for one policy (`engine.rs` lines 213-228): matches
the policy pattern and none of the policy's own excludes. -/
def matching_files (E : RegexEngine) (policy : CompiledPolicy)
    (eligible : List String) : List String :=
  eligible.filter (fun f =>
    E.is_match policy.match_regex f &&
      !(policy.exclude_regexes.any (fun re => E.is_match re f)))

/-- An execution backend (`engine.rs`, `PolicyBackend`), abstracted over its
two capabilities; both the sidecar and the QuickJS variant implement this
shape. -/
structure Backend where
  run_handler_batch : Nat → List String → String → Bool →
    Except String (List (String × HandlerResult))
  run_resolver_batch : Nat → List String → String →
    Except String (List (String × HandlerResult))

/-- The handler-result classification loop of `run_check` (`engine.rs` lines
255-305), folded over the batch results: accumulates the files queued for the
resolver and the `had_failures` flag, starting from the flag value carried in
from earlier policies. -/
def handler_classify (fix has_resolver : Bool)
    (batch_results : List (String × HandlerResult)) (hf0 : Bool) :
    List String × Bool :=
  batch_results.foldl
    (fun acc fr =>
      if fr.2.is_pass then acc
      else if fr.2.is_fixed then acc
      else if fr.2.is_fix_failed then (acc.1, true)
      else if fix && has_resolver then (acc.1 ++ [fr.1], acc.2)
      else (acc.1, true))
    ([], hf0)

/-- The resolver-result classification loop of `run_check` (`engine.rs` lines
328-347): anything that is neither fixed nor a pass records a hard failure. -/
def resolver_classify (resolver_results : List (String × HandlerResult))
    (hf : Bool) : Bool :=
  resolver_results.foldl
    (fun hf fr => if fr.2.is_fixed || fr.2.is_pass then hf else true)
    hf

/-- The handler-call context message (`engine.rs` lines 246-251). -/
def handlerErrMsg (name : String) : String :=
  "Error executing batch handler for policy \x27" ++ name ++ "\x27"

/-- The resolver-call context message (`engine.rs` lines 320-325). -/
def resolverErrMsg (name : String) : String :=
  "Error executing batch resolver for policy \x27" ++ name ++ "\x27"

/-- One iteration of the policy loop of `run_check` (`engine.rs` lines
211-349): compute the matching subset, skip if empty, run the handler batch,
classify, and run the resolver batch when any file was queued. Returns the
updated `had_failures` flag. -/
def run_policy (E : RegexEngine) (backend : Backend) (git_root : String)
    (fix : Bool) (policy_id : Nat) (policy : CompiledPolicy)
    (eligible : List String) (hf0 : Bool) : Except String Bool := do
  let matching := matching_files E policy eligible
  if matching.isEmpty then Except.ok hf0 else do
  let rs ← withContext (handlerErrMsg policy.meta.name)
    (backend.run_handler_batch policy_id matching git_root fix)
  let (needs, hf1) := handler_classify fix policy.meta.has_resolver rs hf0
  if needs.isEmpty then Except.ok hf1 else do
  let rrs ← withContext (resolverErrMsg policy.meta.name)
    (backend.run_resolver_batch policy_id needs git_root)
  Except.ok (resolver_classify rrs hf1)

/-- The policy loop of `run_check` (`engine.rs` lines 211-349), with the
policy index threaded the way `enumerate()` produces it. -/
def run_policies (E : RegexEngine) (backend : Backend) (git_root : String)
    (fix : Bool) : Nat → List CompiledPolicy → List String → Bool →
    Except String Bool
  | _, [], _, hf => Except.ok hf
  | policy_id, p :: ps, eligible, hf => do
    let hf2 ← run_policy E backend git_root fix policy_id p eligible hf
    run_policies E backend git_root fix (policy_id + 1) ps eligible hf2

/-- Embeds `run_check` (`engine.rs` lines 166-355), with logging, timing
statistics and the `verbose`/`quiet` switches elided (they only affect
stderr output, never the control flow or result). -/
def run_check (E : RegexEngine) (backend : Backend)
    (config : LoadConfigResponse) (files : List String) (git_root : String)
    (fix : Bool) : Except String Bool := do
  let cg ← compile_policies E config
  let eligible := eligible_files E cg.2 files
  let hf ← run_policies E backend git_root fix 0 cg.1 eligible false
  Except.ok !hf

/-- Spec-side (§4.2 step 3.d / §7): a handler result counts as a hard failure
when it is a failure with `fixed = false`, or an unresolved failure that does
not go to the resolver path (fix mode off or no resolver declared). Written
from the spec's words, to be compared with the fold in `handler_classify`. -/
def handler_hard_failure (fix has_resolver : Bool) (r : HandlerResult) : Bool :=
  r.is_fix_failed ||
    (!r.is_pass && !r.is_fixed && !r.is_fix_failed && !(fix && has_resolver))

/-- Spec-side (§4.2 step 3.d): a handler result is queued for the resolver
when it is an unresolved failure, fix mode is on and the policy declares a
resolver. -/
def handler_queued (fix has_resolver : Bool) (r : HandlerResult) : Bool :=
  !r.is_pass && !r.is_fixed && !r.is_fix_failed && (fix && has_resolver)

/-- Spec-side (§4.2 step 3.e): a resolver result records a hard failure when
it is neither a pass nor `fixed = true`. -/
def resolver_hard_failure (r : HandlerResult) : Bool :=
  !(r.is_pass || r.is_fixed)

/-- Spec-side rendering of one policy iteration: does this policy record any
hard failure? Declarative `any`/`filter` form of `run_policy`, written from
the spec's classification rules (§4.2 steps 3.d-3.e). -/
def policy_hard_failure (E : RegexEngine) (backend : Backend)
    (git_root : String) (fix : Bool) (policy_id : Nat)
    (policy : CompiledPolicy) (eligible : List String) : Except String Bool := do
  let matching := matching_files E policy eligible
  if matching.isEmpty then Except.ok false else do
  let rs ← withContext (handlerErrMsg policy.meta.name)
    (backend.run_handler_batch policy_id matching git_root fix)
  let hard := rs.any (fun fr => handler_hard_failure fix policy.meta.has_resolver fr.2)
  let needs := (rs.filter (fun fr => handler_queued fix policy.meta.has_resolver fr.2)).map
    (fun fr => fr.1)
  if needs.isEmpty then Except.ok hard else do
  let rrs ← withContext (resolverErrMsg policy.meta.name)
    (backend.run_resolver_batch policy_id needs git_root)
  Except.ok (hard || rrs.any (fun fr => resolver_hard_failure fr.2))

/-- Spec-side: whether any policy records a hard failure, folded over the
policy list with its indices. -/
def policies_hard_failure (E : RegexEngine) (backend : Backend)
    (git_root : String) (fix : Bool) : Nat → List CompiledPolicy →
    List String → Except String Bool
  | _, [], _ => Except.ok false
  | policy_id, p :: ps, eligible => do
    let h ← policy_hard_failure E backend git_root fix policy_id p eligible
    let hs ← policies_hard_failure E backend git_root fix (policy_id + 1) ps eligible
    Except.ok (h || hs)

/-- Spec-side (§4.2 step 5): the whole-run hard-failure predicate — compile,
filter, and ask whether any policy records a hard failure. -/
def run_hard_failures (E : RegexEngine) (backend : Backend)
    (config : LoadConfigResponse) (files : List String) (git_root : String)
    (fix : Bool) : Except String Bool := do
  let cg ← compile_policies E config
  let eligible := eligible_files E cg.2 files
  policies_hard_failure E backend git_root fix 0 cg.1 eligible

/-- The envelope check of `Sidecar::request` (`ipc.rs` lines 73-80): once a
response line has been parsed, `ok=false` becomes a propagated error built
from the envelope's `error` field, and an `ok=true` envelope is returned
unchanged. -/
def envelope_check (response : IpcResponse) : Except String IpcResponse :=
  if !response.ok then
    match response.error with
    | some err => Except.error ("Sidecar error: " ++ err)
    | none => Except.error "Sidecar returned error with no message"
  else Except.ok response

/-- Field lookup on a JSON object, embedding `serde_json` map access: the
value of the first field with the given key, if the value is an object. -/
def jsonField (j : JsonVal) (key : String) : Option JsonVal :=
  match j with
  | JsonVal.obj fields => (fields.find? (fun kv => kv.1 == key)).map (fun kv => kv.2)
  | _ => none

/-- Deserialize an optional string field, as serde does for `Option<String>`:
missing and `null` become `None`, a string becomes `Some`, anything else is a
type error. -/
def parseOptStr : Option JsonVal → Except String (Option String)
  | none => Except.ok none
  | some JsonVal.null => Except.ok none
  | some (JsonVal.str s) => Except.ok (some s)
  | some _ => Except.error "invalid type: expected a string"

/-- Deserialize an optional boolean field (`Option<bool>`). -/
def parseOptBool : Option JsonVal → Except String (Option Bool)
  | none => Except.ok none
  | some JsonVal.null => Except.ok none
  | some (JsonVal.bool b) => Except.ok (some b)
  | some _ => Except.error "invalid type: expected a boolean"

/-- Deserialize an optional list-of-strings field (`Option<Vec<String>>`). -/
def parseOptStrList (oj : Option JsonVal) : Except String (Option (List String)) :=
  match oj with
  | none => Except.ok none
  | some JsonVal.null => Except.ok none
  | some (JsonVal.arr elems) => do
    let strs ← mapExcept (fun e =>
      match e with
      | JsonVal.str s => Except.ok s
      | _ => Except.error "invalid type: expected a string") elems
    Except.ok (some strs)
  | some _ => Except.error "invalid type: expected a sequence"

/-- Embeds serde's derived deserialization of `PolicyErrorResult`
(`types.rs` lines 42-67): camelCase field names, every field optional, with
the aliases `autoFixable` for `fixable` and `resolved` for `fixed`; a
non-object value is a type error. -/
def policy_error_from_json (j : JsonVal) : Except String PolicyErrorResult :=
  match j with
  | JsonVal.obj _ => do
    let error ← parseOptStr (jsonField j "error")
    let error_messages ← parseOptStrList (jsonField j "errorMessages")
    let name ← parseOptStr (jsonField j "name")
    let file ← parseOptStr (jsonField j "file")
    let fixable ← parseOptBool ((jsonField j "fixable").or (jsonField j "autoFixable"))
    let fixed ← parseOptBool ((jsonField j "fixed").or (jsonField j "resolved"))
    let manual_fix ← parseOptStr (jsonField j "manualFix")
    Except.ok { error := error, error_messages := error_messages, name := name,
                file := file, fixable := fixable, fixed := fixed,
                manual_fix := manual_fix }
  | _ => Except.error "invalid type: expected an object"

/-- Embeds `Sidecar::parse_handler_data` (`ipc.rs` lines 211-222), which is
also the inlined data handling of `Sidecar::run_handler` (lines 120-130): a
boolean `true` is a pass, a boolean `false` is an unexpected-error condition,
and only non-boolean data is parsed as a policy failure. -/
def parse_handler_data (data : JsonVal) : Except String HandlerResult :=
  match data with
  | JsonVal.bool true => Except.ok (HandlerResult.Pass true)
  | JsonVal.bool false => Except.error "Handler returned false (unexpected)"
  | _ => do
    let e ← withContext "Failed to parse handler result" (policy_error_from_json data)
    Except.ok (HandlerResult.Failure e)

/-- The inlined data handling of `Sidecar::run_resolver` (`ipc.rs` lines
151-160), identical to `parse_handler_data` up to the wording of the
messages. -/
def parse_resolver_data (data : JsonVal) : Except String HandlerResult :=
  match data with
  | JsonVal.bool true => Except.ok (HandlerResult.Pass true)
  | JsonVal.bool false => Except.error "Resolver returned false (unexpected)"
  | _ => do
    let e ← withContext "Failed to parse resolver result" (policy_error_from_json data)
    Except.ok (HandlerResult.Failure e)

/-- The outcome of one `execute_pending_job` call on the QuickJS runtime
(`quickjs_runtime.rs` lines 474-481): `Ok(true)` (a job ran), `Ok(false)`
(no job was pending), or `Err` (the job threw). -/
inductive JobOutcome where
  | ranJob
  | noJob
  | jobError
deriving DecidableEq, Repr

/-- The fatal-error message for an exceeded iteration ceiling
(`quickjs_runtime.rs` lines 483-487). -/
def drainErrMsg (max_iterations : Nat) : String :=
  "QuickJS event loop exceeded " ++ toString max_iterations ++ " iterations — aborting"

/-- Embeds the phase-2 event-loop pump of `QuickJsRuntime::call_js_batch`
(`quickjs_runtime.rs` lines 469-488) over an abstract job-queue state: while
a job is pending, execute it; `Ok(false)` breaks, a thrown job is ignored and
the drain continues, and once the iteration counter reaches the ceiling the
call fails. -/
def drain_go {S : Type} (pending : S → Bool) (step : S → JobOutcome × S)
    (max_iterations iterations : Nat) (s : S) : Except String S :=
  if pending s then
    match step s with
    | (JobOutcome.noJob, s2) => Except.ok s2
    | (_, s2) =>
      if h : iterations + 1 ≥ max_iterations then
        Except.error (drainErrMsg max_iterations)
      else
        drain_go pending step max_iterations (iterations + 1) s2
  else Except.ok s
termination_by max_iterations - iterations
decreasing_by omega

/-- The drain as `call_js_batch` invokes it: ceiling 500000, counter starting
at 0 (`quickjs_runtime.rs` lines 471-472). -/
def call_js_batch_drain {S : Type} (pending : S → Bool)
    (step : S → JobOutcome × S) (s : S) : Except String S :=
  drain_go pending step 500000 0 s

/-- A concrete regex engine for evaluating the compiler and orchestrator on
closed inputs: the single pattern `(` is invalid (as it is for the Rust
`regex` crate), and a compiled pattern matches a path when it equals the path
outright or is the path under the `(?i)` marker. -/
def testEngine : RegexEngine :=
  { valid := fun p => p != "("
    is_match := fun pat s => pat == s || pat == "(?i)" ++ s }

/-- A concrete backend whose handler passes every file. -/
def okBackend : Backend :=
  { run_handler_batch := fun _ files _ _ =>
      Except.ok (files.map (fun f => (f, HandlerResult.Pass true)))
    run_resolver_batch := fun _ files _ =>
      Except.ok (files.map (fun f => (f, HandlerResult.Pass true))) }

/-- A concrete unresolved policy failure (no fix attempted). -/
def plainFailure : PolicyErrorResult :=
  { error := some "tab found", error_messages := none, name := none,
    file := none, fixable := none, fixed := none, manual_fix := none }

/-- A concrete backend whose handler fails every file with `plainFailure` and
whose resolver passes every file. -/
def failBackend : Backend :=
  { run_handler_batch := fun _ files _ _ =>
      Except.ok (files.map (fun f => (f, HandlerResult.Failure plainFailure)))
    run_resolver_batch := fun _ files _ =>
      Except.ok (files.map (fun f => (f, HandlerResult.Pass true))) }

/-- A concrete policy matching the single path `a.ts` (under `testEngine`). -/
def tsPolicy : PolicyMeta :=
  { name := "no-tabs", description := "", match_pattern := "a.ts",
    match_flags := "", has_resolver := false, exclude_files := [] }

/-- A concrete one-policy configuration. -/
def tsConfig : LoadConfigResponse :=
  { policies := [tsPolicy], exclude_files := [] }

/-- A concrete configuration whose only policy has the invalid match pattern
`(` (invalid under `testEngine`, as under the `regex` crate). -/
def badConfig : LoadConfigResponse :=
  { policies := [{ name := "mypolicy", description := "",
                   match_pattern := "(", match_flags := "",
                   has_resolver := false, exclude_files := [] }],
    exclude_files := [] }

/-- A concrete compiled policy for `tsPolicy` under `testEngine`. -/
def tsCompiled : CompiledPolicy :=
  { meta := tsPolicy, match_regex := "a.ts", exclude_regexes := [] }

/-- A concrete configuration with non-`i` match flags, a per-policy exclude
and a global exclude. -/
def flagConfig : LoadConfigResponse :=
  { policies := [{ name := "pol", description := "", match_pattern := "x",
                   match_flags := "g", has_resolver := false,
                   exclude_files := ["E"] }],
    exclude_files := ["G"] }

/-- The compiled form of `flagConfig`'s policy under `testEngine`. -/
def flagCompiled : List CompiledPolicy :=
  [{ meta := { name := "pol", description := "", match_pattern := "x",
               match_flags := "g", has_resolver := false,
               exclude_files := ["E"] },
     match_regex := "x", exclude_regexes := ["(?i)E"] }]

/-- A concrete compact batch response with one pass and one unresolved
failure. -/
def unfixedBatch : CompactBatchResponse :=
  { pass := ["b.ts"],
    fail := [{ file := "a.ts", error := some "tab found",
               error_messages := none, fixable := none, fixed := none,
               manual_fix := none }] }

/-- A concrete JSON error object, as a handler returns on failure. -/
def errObj : JsonVal := JsonVal.obj [("error", JsonVal.str "x")]

/-- A concrete job-queue state for the drain: the list of outcomes the
runtime's `execute_pending_job` will produce, in order. -/
def queuePending (s : List JobOutcome) : Bool := !s.isEmpty

/-- Concrete step function for `queuePending`: produce the listed outcomes in
order; an empty queue reports that no job was pending. -/
def queueStep (s : List JobOutcome) : JobOutcome × List JobOutcome :=
  match s with
  | [] => (JobOutcome.noJob, [])
  | o :: rest => (o, rest)

/-! ### Helper lemmas -/

/-- Characterization of the classification fold of `run_check` for an
arbitrary accumulator: it appends the queued files and ors in the
hard-failure flag. -/
theorem classify_foldl (fix hr : Bool) :
    ∀ (rs : List (String × HandlerResult)) (acc : List String × Bool),
      rs.foldl
        (fun acc fr =>
          if fr.2.is_pass then acc
          else if fr.2.is_fixed then acc
          else if fr.2.is_fix_failed then (acc.1, true)
          else if fix && hr then (acc.1 ++ [fr.1], acc.2)
          else (acc.1, true)) acc =
      (acc.1 ++ (rs.filter (fun fr => handler_queued fix hr fr.2)).map (fun fr => fr.1),
        acc.2 || rs.any (fun fr => handler_hard_failure fix hr fr.2)) := by
  intro rs
  induction rs with
  | nil => intro acc; simp
  | cons fr rest ih =>
    intro acc
    obtain ⟨file, r⟩ := fr
    simp only [List.foldl_cons, List.filter_cons, List.any_cons]
    cases r with
    | Pass b =>
      cases b with
      | true =>
        simpa [handler_queued, handler_hard_failure, HandlerResult.is_pass,
          HandlerResult.is_fixed, HandlerResult.is_fix_failed] using ih acc
      | false =>
        cases hq : fix && hr with
        | true =>
          simpa [handler_queued, handler_hard_failure, HandlerResult.is_pass,
            HandlerResult.is_fixed, HandlerResult.is_fix_failed, hq] using
            ih (acc.1 ++ [file], acc.2)
        | false =>
          simpa [handler_queued, handler_hard_failure, HandlerResult.is_pass,
            HandlerResult.is_fixed, HandlerResult.is_fix_failed, hq] using
            ih (acc.1, true)
    | Failure e =>
      rcases he : e.fixed with _ | hb
      · cases hq : fix && hr with
        | true =>
          simpa [handler_queued, handler_hard_failure, HandlerResult.is_pass,
            HandlerResult.is_fixed, HandlerResult.is_fix_failed, he, hq] using
            ih (acc.1 ++ [file], acc.2)
        | false =>
          simpa [handler_queued, handler_hard_failure, HandlerResult.is_pass,
            HandlerResult.is_fixed, HandlerResult.is_fix_failed, he, hq] using
            ih (acc.1, true)
      · cases hb with
        | true =>
          simpa [handler_queued, handler_hard_failure, HandlerResult.is_pass,
            HandlerResult.is_fixed, HandlerResult.is_fix_failed, he] using ih acc
        | false =>
          simpa [handler_queued, handler_hard_failure, HandlerResult.is_pass,
            HandlerResult.is_fixed, HandlerResult.is_fix_failed, he] using
            ih (acc.1, true)

/-- The classification loop computed declaratively: queued files are the
filtered batch results, the flag is ored with any hard failure. -/
theorem handler_classify_eq (fix hr : Bool) (rs : List (String × HandlerResult))
    (hf0 : Bool) :
    handler_classify fix hr rs hf0 =
      ((rs.filter (fun fr => handler_queued fix hr fr.2)).map (fun fr => fr.1),
        hf0 || rs.any (fun fr => handler_hard_failure fix hr fr.2)) := by
  simpa [handler_classify] using classify_foldl fix hr rs ([], hf0)

/-- The resolver classification loop computed declaratively. -/
theorem resolver_classify_eq (rrs : List (String × HandlerResult)) (hf : Bool) :
    resolver_classify rrs hf =
      (hf || rrs.any (fun fr => resolver_hard_failure fr.2)) := by
  have hstep : (fun (hf : Bool) (fr : String × HandlerResult) =>
      if fr.2.is_fixed || fr.2.is_pass then hf else true) =
      (fun (hf : Bool) (fr : String × HandlerResult) =>
        hf || resolver_hard_failure fr.2) := by
    funext hf fr
    cases hfix : fr.2.is_fixed <;> cases hp : fr.2.is_pass <;>
      simp [resolver_hard_failure, hfix, hp]
  rw [resolver_classify, hstep]
  induction rrs generalizing hf with
  | nil => simp
  | cons fr rest ih => simp [List.foldl_cons, List.any_cons, ih, Bool.or_assoc]

/-- Every element of a successful `mapExcept` run comes from a successful
application of `f` to a source element. -/
theorem mapExcept_ok_mem {α β : Type} (f : α → Except String β) :
    ∀ (xs : List α) (ys : List β), mapExcept f xs = Except.ok ys →
      ∀ y ∈ ys, ∃ x ∈ xs, f x = Except.ok y := by
  intro xs
  induction xs with
  | nil =>
    intro ys h y hy
    simp only [mapExcept] at h
    cases h
    simp at hy
  | cons a as ih =>
    intro ys h y hy
    simp only [mapExcept] at h
    cases hfa : f a with
    | error e => simp [hfa, Bind.bind, Except.bind] at h
    | ok b =>
      cases hrest : mapExcept f as with
      | error e => simp [hfa, hrest, Bind.bind, Except.bind] at h
      | ok bs =>
        simp only [hfa, hrest, Bind.bind, Except.bind, Except.ok.injEq] at h
        subst h
        rcases List.mem_cons.mp hy with hy | hy
        · exact ⟨a, List.mem_cons_self _ _, hy ▸ hfa⟩
        · obtain ⟨x, hx, hfx⟩ := ih bs hrest y hy
          exact ⟨x, List.mem_cons_of_mem _ hx, hfx⟩

/-- A failing `mapExcept` run reports the error of some source element. -/
theorem mapExcept_error {α β : Type} (f : α → Except String β) :
    ∀ (xs : List α) (e : String), mapExcept f xs = Except.error e →
      ∃ x ∈ xs, f x = Except.error e := by
  intro xs
  induction xs with
  | nil => intro e h; simp [mapExcept] at h
  | cons a as ih =>
    intro e h
    simp only [mapExcept] at h
    cases hfa : f a with
    | error e2 =>
      simp only [hfa, Bind.bind, Except.bind, Except.error.injEq] at h
      subst h
      exact ⟨a, List.mem_cons_self _ _, hfa⟩
    | ok b =>
      cases hrest : mapExcept f as with
      | error e2 =>
        simp only [hfa, hrest, Bind.bind, Except.bind, Except.error.injEq] at h
        subst h
        obtain ⟨x, hx, hfx⟩ := ih e2 hrest
        exact ⟨x, List.mem_cons_of_mem _ hx, hfx⟩
      | ok bs => simp [hfa, hrest, Bind.bind, Except.bind] at h

/-- When successful values of `f` are a function `g` of the input,
`mapExcept f` computes `List.map g`. -/
theorem mapExcept_ok_determined {α β : Type} (f : α → Except String β)
    (g : α → β) (hfg : ∀ a r, f a = Except.ok r → r = g a) :
    ∀ (xs : List α) (ys : List β), mapExcept f xs = Except.ok ys →
      ys = xs.map g := by
  intro xs
  induction xs with
  | nil => intro ys h; simp only [mapExcept] at h; cases h; simp
  | cons a as ih =>
    intro ys h
    simp only [mapExcept] at h
    cases hfa : f a with
    | error e => simp [hfa, Bind.bind, Except.bind] at h
    | ok b =>
      cases hrest : mapExcept f as with
      | error e => simp [hfa, hrest, Bind.bind, Except.bind] at h
      | ok bs =>
        simp only [hfa, hrest, Bind.bind, Except.bind, Except.ok.injEq] at h
        subst h
        simp [hfg a b hfa, ih bs hrest]

/-- A successful `compile_js_regex` returns the Rust pattern, `(?i)`-prefixed
exactly when the flag string contains `i`. -/
theorem compile_js_regex_ok (E : RegexEngine) (p fl r : String)
    (h : compile_js_regex E p fl = Except.ok r) :
    r = (if fl.data.contains 'i' then "(?i)" ++ p else p) := by
  simp only [compile_js_regex] at h
  split at h <;> split at h <;> simp_all

/-- A failing `compile_js_regex` reports exactly its own message. -/
theorem compile_js_regex_error (E : RegexEngine) (p fl e : String)
    (h : compile_js_regex E p fl = Except.error e) : e = regexErrMsg p fl := by
  simp only [compile_js_regex] at h
  split at h <;> split at h <;> simp_all

/-- `withContext` is invisible on success. -/
theorem withContext_eq_ok {α : Type} (msg : String) (x : Except String α) (a : α) :
    withContext msg x = Except.ok a ↔ x = Except.ok a := by
  cases x <;> simp [withContext]

/-- `withContext` prefixes its message onto a failure. -/
theorem withContext_eq_error {α : Type} (msg : String) (x : Except String α) (e : String) :
    withContext msg x = Except.error e ↔
      ∃ e2, x = Except.error e2 ∧ e = msg ++ ": " ++ e2 := by
  cases x with
  | ok a => simp [withContext]
  | error e2 => simp [withContext, eq_comm]

/-- With flags `"i"`, a successful compile yields the `(?i)`-prefixed
pattern. -/
theorem compile_js_regex_i (E : RegexEngine) (p r : String)
    (h : compile_js_regex E p "i" = Except.ok r) : r = "(?i)" ++ p := by
  have hc : ("i".data.contains 'i') = true := by decide
  simpa [hc] using compile_js_regex_ok E p "i" r h

/-- Inversion of a successful `compile_policy`: the metadata is kept, the
match regex carries `(?i)` exactly when declared, and every exclude regex
carries `(?i)` unconditionally. -/
theorem compile_policy_ok (E : RegexEngine) (m : PolicyMeta) (cp : CompiledPolicy)
    (h : compile_policy E m = Except.ok cp) :
    cp.meta = m ∧
    cp.match_regex = (if m.match_flags.data.contains 'i'
      then "(?i)" ++ m.match_pattern else m.match_pattern) ∧
    cp.exclude_regexes = m.exclude_files.map (fun p => "(?i)" ++ p) := by
  simp only [compile_policy] at h
  cases h1 : compile_js_regex E m.match_pattern m.match_flags with
  | error e => simp [h1, Bind.bind, Except.bind] at h
  | ok mr =>
    cases h2 : mapExcept (fun p => compile_js_regex E p "i") m.exclude_files with
    | error e => simp [h1, h2, withContext, Bind.bind, Except.bind] at h
    | ok ers =>
      simp only [h1, h2, withContext, Bind.bind, Except.bind, Except.ok.injEq] at h
      subst h
      refine ⟨rfl, compile_js_regex_ok E _ _ _ h1, ?_⟩
      exact mapExcept_ok_determined _ _ (fun a r hr => compile_js_regex_i E a r hr) _ _ h2

/-- Inversion of a failing `compile_policy`: the error is the match-pattern
message (without the policy name) or a policy-named exclude message. -/
theorem compile_policy_error (E : RegexEngine) (m : PolicyMeta) (e : String)
    (h : compile_policy E m = Except.error e) :
    e = regexErrMsg m.match_pattern m.match_flags ∨
      ∃ p ∈ m.exclude_files, e = excludeErrMsg m.name ++ ": " ++ regexErrMsg p "i" := by
  simp only [compile_policy] at h
  cases h1 : compile_js_regex E m.match_pattern m.match_flags with
  | error e1 =>
    simp only [h1, Bind.bind, Except.bind, Except.error.injEq] at h
    subst h
    exact Or.inl (compile_js_regex_error E _ _ _ h1)
  | ok mr =>
    cases h2 : mapExcept (fun p => compile_js_regex E p "i") m.exclude_files with
    | error e2 =>
      simp only [h1, h2, withContext, Bind.bind, Except.bind, Except.error.injEq] at h
      subst h
      obtain ⟨p, hp, hpe⟩ := mapExcept_error _ _ _ h2
      exact Or.inr ⟨p, hp, by rw [compile_js_regex_error E _ _ _ hpe]⟩
    | ok ers => simp [h1, h2, withContext, Bind.bind, Except.bind] at h

/-- Inversion of a successful `compile_policies`. -/
theorem compile_policies_ok (E : RegexEngine) (config : LoadConfigResponse)
    (compiled : List CompiledPolicy) (globals : List String)
    (h : compile_policies E config = Except.ok (compiled, globals)) :
    (∀ cp ∈ compiled, ∃ m ∈ config.policies, compile_policy E m = Except.ok cp) ∧
    globals = config.exclude_files.map (fun p => "(?i)" ++ p) := by
  simp only [compile_policies] at h
  cases h1 : mapExcept (compile_policy E) config.policies with
  | error e => simp [h1, Bind.bind, Except.bind] at h
  | ok cps =>
    cases h2 : mapExcept (fun p => compile_js_regex E p "i") config.exclude_files with
    | error e => simp [h1, h2, withContext, Bind.bind, Except.bind] at h
    | ok gs =>
      simp only [h1, h2, withContext, Bind.bind, Except.bind, Except.ok.injEq,
        Prod.mk.injEq] at h
      obtain ⟨hc, hg⟩ := h
      subst hc
      subst hg
      refine ⟨fun cp hcp => mapExcept_ok_mem _ _ _ h1 cp hcp, ?_⟩
      exact mapExcept_ok_determined _ _ (fun a r hr => compile_js_regex_i E a r hr) _ _ h2

/-- Inversion of a failing `compile_policies`: the error comes from some
policy or from the global exclude list. -/
theorem compile_policies_error (E : RegexEngine) (config : LoadConfigResponse)
    (e : String) (h : compile_policies E config = Except.error e) :
    (∃ m ∈ config.policies, compile_policy E m = Except.error e) ∨
      ∃ p ∈ config.exclude_files,
        e = globalExcludeErrMsg ++ ": " ++ regexErrMsg p "i" := by
  simp only [compile_policies] at h
  cases h1 : mapExcept (compile_policy E) config.policies with
  | error e1 =>
    simp only [h1, Bind.bind, Except.bind, Except.error.injEq] at h
    subst h
    exact Or.inl (mapExcept_error _ _ _ h1)
  | ok cps =>
    cases h2 : mapExcept (fun p => compile_js_regex E p "i") config.exclude_files with
    | error e2 =>
      simp only [h1, h2, withContext, Bind.bind, Except.bind, Except.error.injEq] at h
      subst h
      obtain ⟨p, hp, hpe⟩ := mapExcept_error _ _ _ h2
      exact Or.inr ⟨p, hp, by rw [compile_js_regex_error E _ _ _ hpe]⟩
    | ok gs => simp [h1, h2, withContext, Bind.bind, Except.bind] at h

/-- One policy iteration refines the spec-side predicate: the updated flag is
the incoming flag ored with whether this policy records a hard failure, and
the error behaviour is identical. -/
theorem run_policy_eq (E : RegexEngine) (backend : Backend) (git_root : String)
    (fix : Bool) (policy_id : Nat) (policy : CompiledPolicy)
    (eligible : List String) (hf0 : Bool) :
    run_policy E backend git_root fix policy_id policy eligible hf0 =
      Except.map (fun h => hf0 || h)
        (policy_hard_failure E backend git_root fix policy_id policy eligible) := by
  simp only [run_policy, policy_hard_failure]
  cases hm : (matching_files E policy eligible).isEmpty with
  | true => simp [hm, Except.map]
  | false =>
    simp only [hm, Bool.false_eq_true, if_false]
    cases hb : backend.run_handler_batch policy_id (matching_files E policy eligible)
        git_root fix with
    | error e => simp [hb, withContext, Bind.bind, Except.bind, Except.map]
    | ok rs =>
      simp only [hb, withContext, Bind.bind, Except.bind]
      rw [handler_classify_eq]
      simp only []
      cases hn : ((rs.filter (fun fr =>
          handler_queued fix policy.meta.has_resolver fr.2)).map (fun fr => fr.1)).isEmpty with
      | true => simp [hn, Except.map]
      | false =>
        simp only [hn, Bool.false_eq_true, if_false]
        cases hr : backend.run_resolver_batch policy_id
            ((rs.filter (fun fr =>
              handler_queued fix policy.meta.has_resolver fr.2)).map (fun fr => fr.1))
            git_root with
        | error e => simp [hr, withContext, Bind.bind, Except.bind, Except.map]
        | ok rrs =>
          simp [hr, withContext, Bind.bind, Except.bind, Except.map,
            resolver_classify_eq, Bool.or_assoc]

/-- The policy loop refines the spec-side any-policy predicate. -/
theorem run_policies_eq (E : RegexEngine) (backend : Backend) (git_root : String)
    (fix : Bool) :
    ∀ (ps : List CompiledPolicy) (policy_id : Nat) (eligible : List String)
      (hf0 : Bool),
      run_policies E backend git_root fix policy_id ps eligible hf0 =
        Except.map (fun h => hf0 || h)
          (policies_hard_failure E backend git_root fix policy_id ps eligible) := by
  intro ps
  induction ps with
  | nil => intro policy_id eligible hf0; simp [run_policies, policies_hard_failure, Except.map]
  | cons p rest ih =>
    intro policy_id eligible hf0
    simp only [run_policies, policies_hard_failure]
    rw [run_policy_eq]
    cases hp : policy_hard_failure E backend git_root fix policy_id p eligible with
    | error e => simp [hp, Except.map, Bind.bind, Except.bind]
    | ok h =>
      simp only [hp, Except.map, Bind.bind, Except.bind]
      rw [ih]
      cases hrest : policies_hard_failure E backend git_root fix (policy_id + 1)
          rest eligible with
      | error e => simp [hrest, Except.map, Bind.bind, Except.bind]
      | ok hs => simp [hrest, Except.map, Bind.bind, Except.bind, Bool.or_assoc]

/-- A batch result produced by `expand_compact_response` is a `Pass true` or
a `Failure`. -/
theorem mem_expand_shape (batch : CompactBatchResponse)
    (fr : String × HandlerResult) (h : fr ∈ expand_compact_response batch) :
    fr.2 = HandlerResult.Pass true ∨ ∃ e, fr.2 = HandlerResult.Failure e := by
  simp only [expand_compact_response, List.mem_append, List.mem_map] at h
  rcases h with ⟨f, _, rfl⟩ | ⟨item, _, rfl⟩
  · exact Or.inl rfl
  · exact Or.inr ⟨_, rfl⟩

/-- The drain always either finishes or fails with the ceiling message. -/
theorem drain_go_dichotomy {S : Type} (pending : S → Bool)
    (step : S → JobOutcome × S) (max it : Nat) (s : S) :
    (∃ s2, drain_go pending step max it s = Except.ok s2) ∨
      drain_go pending step max it s = Except.error (drainErrMsg max) := by
  induction it, s using drain_go.induct pending step max with
  | case1 it s hp s2 hstep =>
    left
    rw [drain_go]
    simp [hp, hstep]
  | case2 it s hp o s2 hno hstep hceil =>
    right
    rw [drain_go]
    simp only [hp, if_true, hstep]
    cases o with
    | noJob => exact absurd rfl hno
    | ranJob => simp [hceil]
    | jobError => simp [hceil]
  | case3 it s hp o s2 hno hstep hceil ih =>
    rw [drain_go]
    simp only [hp, if_true, hstep]
    cases o with
    | noJob => exact absurd rfl hno
    | ranJob => simpa [hceil] using ih
    | jobError => simpa [hceil] using ih
  | case4 it s hp =>
    left
    rw [drain_go]
    simp [hp]

/-! ### Claim theorems -/

/-- C2: whenever `run_check` completes without a transport or configuration
error, its boolean is `true` exactly when no hard failure was recorded across
any policy — no handler result with `fixed = false`, no unresolved handler
failure outside the resolver path, and no resolver result that is neither a
pass nor `fixed = true` (the spec-side `run_hard_failures`); on errors the two
agree as well. -/
theorem run_check_success_iff_no_hard_failure :
    ∀ (E : RegexEngine) (backend : Backend) (config : LoadConfigResponse)
      (files : List String) (git_root : String) (fix : Bool),
      run_check E backend config files git_root fix =
        Except.map (fun hf => !hf)
          (run_hard_failures E backend config files git_root fix) := by
  intro E backend config files git_root fix
  simp only [run_check, run_hard_failures]
  cases hc : compile_policies E config with
  | error e => simp [hc, Except.map, Bind.bind, Except.bind]
  | ok cg =>
    simp only [hc, Bind.bind, Except.bind]
    rw [run_policies_eq]
    cases hp : policies_hard_failure E backend git_root fix 0 cg.1
        (eligible_files E cg.2 files) with
    | error e => simp [hp, Except.map]
    | ok h => simp [hp, Except.map]

/-- C10: `Pass(false)` passes none of the four predicates, so the
classification loop of `run_check` treats it as a plain failure — queued for
the resolver exactly when fix mode is on and the policy has a resolver, and
recorded as a hard failure otherwise; only `Pass(true)` counts as a pass. -/
theorem pass_false_is_plain_failure :
    HandlerResult.is_pass (HandlerResult.Pass false) = false ∧
    HandlerResult.is_fixed (HandlerResult.Pass false) = false ∧
    HandlerResult.is_fix_failed (HandlerResult.Pass false) = false ∧
    HandlerResult.is_fixable (HandlerResult.Pass false) = false ∧
    ∀ (fix hr hf0 : Bool) (file : String),
      handler_classify fix hr [(file, HandlerResult.Pass false)] hf0 =
        (if fix && hr then ([file], hf0) else ([], true)) := by
  refine ⟨rfl, rfl, rfl, rfl, ?_⟩
  intro fix hr hf0 file
  cases hq : fix && hr <;>
    simp [handler_classify, HandlerResult.is_pass, HandlerResult.is_fixed,
      HandlerResult.is_fix_failed, hq]

/-- C3: expanding a compact batch response and re-compacting it restores the
response exactly — same pass/fail partition, same error fields per failing
file; and the expansion maps every pass-list file to `Pass(true)` and every
fail-list item to a `Failure` carrying that item's fields. -/
theorem expand_recompact_roundtrip :
    ∀ batch : CompactBatchResponse,
      recompact (expand_compact_response batch) = batch ∧
      expand_compact_response batch =
        batch.pass.map (fun f => (f, HandlerResult.Pass true)) ++
          batch.fail.map (fun item =>
            (item.file, HandlerResult.Failure
              { error := item.error, error_messages := item.error_messages,
                name := none, file := none, fixable := item.fixable,
                fixed := item.fixed, manual_fix := item.manual_fix })) := by
  intro batch
  refine ⟨?_, rfl⟩
  obtain ⟨pass, fail⟩ := batch
  have hp1 : ∀ l : List String,
      List.filter (fun fr => fr.2.is_pass)
        (l.map (fun f => (f, HandlerResult.Pass true))) =
      l.map (fun f => (f, HandlerResult.Pass true)) := by
    intro l
    induction l with
    | nil => rfl
    | cons a t ih => simp [List.filter_cons, HandlerResult.is_pass, ih]
  have hp2 : ∀ l : List CompactBatchFailureItem,
      List.filter (fun fr => fr.2.is_pass)
        (l.map (fun item =>
          (item.file, HandlerResult.Failure
            { error := item.error, error_messages := item.error_messages,
              name := none, file := none, fixable := item.fixable,
              fixed := item.fixed, manual_fix := item.manual_fix }))) = [] := by
    intro l
    induction l with
    | nil => rfl
    | cons a t ih => simp [List.filter_cons, HandlerResult.is_pass, ih]
  have hf1 : ∀ l : List String,
      List.filterMap (fun fr : String × HandlerResult =>
        match fr.2 with
        | HandlerResult.Failure e =>
          some ({ file := fr.1, error := e.error,
                  error_messages := e.error_messages, fixable := e.fixable,
                  fixed := e.fixed,
                  manual_fix := e.manual_fix } : CompactBatchFailureItem)
        | _ => none)
        (l.map (fun f => (f, HandlerResult.Pass true))) = [] := by
    intro l
    induction l with
    | nil => rfl
    | cons a t ih => simp [List.filterMap_cons, ih]
  have hf2 : ∀ l : List CompactBatchFailureItem,
      List.filterMap (fun fr : String × HandlerResult =>
        match fr.2 with
        | HandlerResult.Failure e =>
          some ({ file := fr.1, error := e.error,
                  error_messages := e.error_messages, fixable := e.fixable,
                  fixed := e.fixed,
                  manual_fix := e.manual_fix } : CompactBatchFailureItem)
        | _ => none)
        (l.map (fun item =>
          (item.file, HandlerResult.Failure
            { error := item.error, error_messages := item.error_messages,
              name := none, file := none, fixable := item.fixable,
              fixed := item.fixed, manual_fix := item.manual_fix }))) = l := by
    intro l
    induction l with
    | nil => rfl
    | cons a t ih => simpa [List.filterMap_cons] using ih
  simp only [recompact, expand_compact_response, List.filter_append,
    List.filterMap_append, List.map_append, hp1, hp2, hf1, hf2,
    List.map_map, List.append_nil, List.nil_append]
  congr 1
  simp [Function.comp_def]

/-- C1: a file is queued for a policy's resolver batch (the `needs_resolver`
list that `run_policy` hands to `run_resolver_batch`) only if fix mode is on,
the policy declares a resolver, and that file's handler result — which both
backends produce through `expand_compact_response` — is a failure whose
`fixed` field is unset; results with `fixed` set (true or false) are never
queued. -/
theorem resolver_batch_only_unfixed_failures :
    (∀ (fix hr hf0 : Bool) (batch : CompactBatchResponse) (file : String),
      file ∈ (handler_classify fix hr (expand_compact_response batch) hf0).1 →
        fix = true ∧ hr = true ∧
          ∃ e : PolicyErrorResult,
            (file, HandlerResult.Failure e) ∈ expand_compact_response batch ∧
              e.fixed = none) ∧
    (∀ (fix hr hf0 : Bool) (rs : List (String × HandlerResult)),
      (∀ fr ∈ rs, fr.2.is_fixed = true ∨ fr.2.is_fix_failed = true) →
        (handler_classify fix hr rs hf0).1 = []) := by
  constructor
  · intro fix hr hf0 batch file hmem
    rw [handler_classify_eq] at hmem
    simp only [List.mem_map, List.mem_filter] at hmem
    obtain ⟨fr, ⟨hfr, hq⟩, rfl⟩ := hmem
    simp only [handler_queued, Bool.and_eq_true, Bool.not_eq_eq_eq_not,
      Bool.not_true] at hq
    obtain ⟨⟨⟨hp, hfx⟩, hff⟩, hfix, hhr⟩ := hq
    refine ⟨hfix, hhr, ?_⟩
    rcases mem_expand_shape batch fr hfr with hshape | ⟨e, hshape⟩
    · rw [hshape] at hp
      simp [HandlerResult.is_pass] at hp
    · refine ⟨e, by rw [← hshape]; exact hfr, ?_⟩
      rw [hshape] at hfx hff
      simp only [HandlerResult.is_fixed, beq_iff_eq] at hfx
      simp only [HandlerResult.is_fix_failed, beq_iff_eq] at hff
      cases he : e.fixed with
      | none => rfl
      | some b =>
        cases b
        · rw [he] at hff; simp at hff
        · rw [he] at hfx; simp at hfx
  · intro fix hr hf0 rs hall
    rw [handler_classify_eq]
    simp only [List.map_eq_nil_iff, List.filter_eq_nil_iff]
    intro fr hfr
    rcases hall fr hfr with hfx | hff
    · simp [handler_queued, hfx]
    · simp [handler_queued, hff]

/-- Witness for C1: with fix mode on and a resolver declared, the unresolved
failure of `unfixedBatch` is queued and the theorem's conclusions hold for
it. -/
theorem resolver_batch_only_unfixed_failures_witness :
    ("a.ts" ∈ (handler_classify true true (expand_compact_response unfixedBatch) false).1) ∧
    (true = true ∧ true = true ∧
      ∃ e : PolicyErrorResult,
        ("a.ts", HandlerResult.Failure e) ∈ expand_compact_response unfixedBatch ∧
          e.fixed = none) := by
  have hmem : "a.ts" ∈ (handler_classify true true
      (expand_compact_response unfixedBatch) false).1 := by decide
  exact ⟨hmem,
    resolver_batch_only_unfixed_failures.1 true true false unfixedBatch "a.ts" hmem⟩

/-- C6: an empty path, or one matching a compiled global exclude, is never in
the eligible set nor in any policy's matching subset (the argument of the
handler batch call); moreover every file queued for a resolver batch is drawn
from the handler batch results, so such a file reaches no backend call. -/
theorem globally_excluded_never_evaluated :
    (∀ (E : RegexEngine) (globals files : List String)
       (policy : CompiledPolicy) (f : String),
      (f.isEmpty = true ∨ ∃ re ∈ globals, E.is_match re f = true) →
        f ∉ eligible_files E globals files ∧
        f ∉ matching_files E policy (eligible_files E globals files)) ∧
    (∀ (fix hr hf0 : Bool) (rs : List (String × HandlerResult)) (file : String),
      file ∈ (handler_classify fix hr rs hf0).1 →
        file ∈ rs.map (fun fr => fr.1)) := by
  constructor
  · intro E globals files policy f hf
    have helig : f ∉ eligible_files E globals files := by
      intro hmem
      simp only [eligible_files, List.mem_filter, Bool.and_eq_true,
        Bool.not_eq_eq_eq_not, Bool.not_true] at hmem
      obtain ⟨-, hne, hnex⟩ := hmem
      rcases hf with hf | ⟨re, hre, hmatch⟩
      · rw [hf] at hne; simp at hne
      · have : globals.any (fun re => E.is_match re f) = true :=
          List.any_eq_true.mpr ⟨re, hre, hmatch⟩
        rw [this] at hnex
        simp at hnex
    refine ⟨helig, fun hmem => helig ?_⟩
    simp only [matching_files, List.mem_filter] at hmem
    exact hmem.1
  · intro fix hr hf0 rs file hmem
    rw [handler_classify_eq] at hmem
    simp only [List.mem_map, List.mem_filter] at hmem
    obtain ⟨fr, ⟨hfr, -⟩, rfl⟩ := hmem
    exact List.mem_map.mpr ⟨fr, hfr, rfl⟩

/-- Witness for C6: the globally-excluded path `skip` (via the compiled
exclude `(?i)skip` under `testEngine`) is not eligible and not matched by the
`tsCompiled` policy, and a queued file always comes from the handler
results. -/
theorem globally_excluded_never_evaluated_witness :
    ("skip".isEmpty = true ∨
      ∃ re ∈ ["(?i)skip"], testEngine.is_match re "skip" = true) ∧
    ("skip" ∉ eligible_files testEngine ["(?i)skip"] ["skip", "a.ts"] ∧
      "skip" ∉ matching_files testEngine tsCompiled
        (eligible_files testEngine ["(?i)skip"] ["skip", "a.ts"])) ∧
    ("a.ts" ∈ (handler_classify true true
        [("a.ts", HandlerResult.Failure plainFailure)] false).1 ∧
      "a.ts" ∈ [("a.ts", HandlerResult.Failure plainFailure)].map
        (fun fr => fr.1)) := by
  have hyp : ("skip" : String).isEmpty = true ∨
      ∃ re ∈ ["(?i)skip"], testEngine.is_match re "skip" = true :=
    Or.inr ⟨"(?i)skip", by decide, by decide⟩
  have hmem : "a.ts" ∈ (handler_classify true true
      [("a.ts", HandlerResult.Failure plainFailure)] false).1 := by decide
  exact ⟨hyp,
    globally_excluded_never_evaluated.1 testEngine ["(?i)skip"]
      ["skip", "a.ts"] tsCompiled "skip" hyp,
    hmem,
    globally_excluded_never_evaluated.2 true true false
      [("a.ts", HandlerResult.Failure plainFailure)] "a.ts" hmem⟩

/-- C4: in every successfully compiled policy set, each exclude matcher —
per-policy and global — carries the `(?i)` case-insensitivity marker
regardless of the policy's declared flags, while the match matcher carries it
exactly when the declared flags contain `i`; and compilation success is
independent of any flag other than `i` (unrecognized flags are ignored, not
rejected). -/
theorem exclude_matchers_case_insensitive :
    (∀ (E : RegexEngine) (config : LoadConfigResponse)
       (compiled : List CompiledPolicy) (globals : List String),
      compile_policies E config = Except.ok (compiled, globals) →
        (∀ cp ∈ compiled,
          cp.exclude_regexes = cp.meta.exclude_files.map (fun p => "(?i)" ++ p) ∧
          cp.match_regex = (if cp.meta.match_flags.data.contains 'i'
            then "(?i)" ++ cp.meta.match_pattern else cp.meta.match_pattern)) ∧
        globals = config.exclude_files.map (fun p => "(?i)" ++ p)) ∧
    (∀ (E : RegexEngine) (p f1 f2 : String),
      f1.data.contains 'i' = f2.data.contains 'i' →
        (compile_js_regex E p f1).toOption = (compile_js_regex E p f2).toOption) := by
  constructor
  · intro E config compiled globals h
    obtain ⟨hmem, hglob⟩ := compile_policies_ok E config compiled globals h
    refine ⟨?_, hglob⟩
    intro cp hcp
    obtain ⟨m, _, hok⟩ := hmem cp hcp
    obtain ⟨hmeta, hmr, hex⟩ := compile_policy_ok E m cp hok
    subst hmeta
    exact ⟨hex, hmr⟩
  · intro E p f1 f2 hff
    simp only [compile_js_regex]
    rw [hff]
    cases hv : E.valid (if f2.data.contains 'i' then "(?i)" ++ p else p) <;>
      simp [hv, Except.toOption]

/-- Witness for C4: `flagConfig` (flags `g`, exclude `E`, global exclude `G`)
compiles under `testEngine` to `(?i)`-prefixed exclude matchers and an
unprefixed match matcher, and the flag strings `gx` and the empty string
behave alike. -/
theorem exclude_matchers_case_insensitive_witness :
    (compile_policies testEngine flagConfig = Except.ok (flagCompiled, ["(?i)G"])) ∧
    ((∀ cp ∈ flagCompiled,
        cp.exclude_regexes = cp.meta.exclude_files.map (fun p => "(?i)" ++ p) ∧
        cp.match_regex = (if cp.meta.match_flags.data.contains 'i'
          then "(?i)" ++ cp.meta.match_pattern else cp.meta.match_pattern)) ∧
      ["(?i)G"] = flagConfig.exclude_files.map (fun p => "(?i)" ++ p)) ∧
    ("gx".data.contains 'i' = "".data.contains 'i') ∧
    (compile_js_regex testEngine "x" "gx").toOption =
      (compile_js_regex testEngine "x" "").toOption := by
  have hok : compile_policies testEngine flagConfig =
      Except.ok (flagCompiled, ["(?i)G"]) := by rfl
  have hflags : ("gx".data.contains 'i') = ("".data.contains 'i') := by decide
  exact ⟨hok,
    exclude_matchers_case_insensitive.1 testEngine flagConfig flagCompiled
      ["(?i)G"] hok,
    hflags,
    exclude_matchers_case_insensitive.2 testEngine "x" "gx" "" hflags⟩

/-- Counterexample for C5: in `badConfig` the match pattern `(` of the policy
named `mypolicy` fails to compile, the whole run aborts with that compile
error, but the error names only the pattern — the policy name `mypolicy`
appears nowhere in it, contradicting the claim that the error identifies the
policy by name. -/
theorem compile_error_missing_policy_name :
    compile_policies testEngine badConfig =
        Except.error "Failed to compile regex pattern: ( (flags: )" ∧
    ¬ ("mypolicy".data <:+: "Failed to compile regex pattern: ( (flags: )".data) ∧
    run_check testEngine okBackend badConfig ["a.ts"] "/repo" true =
        Except.error "Failed to compile regex pattern: ( (flags: )" := by
  refine ⟨by rfl, by decide, by rfl⟩

/-- C5 (amended): a pattern compile failure aborts the whole run before any
file filtering or backend call — `run_check` returns the compile error itself,
for every backend and file list, and no partial compilation is kept — and the
error always identifies the failing pattern (with its flags); for an exclude
pattern it additionally names the policy (or the global exclude list), but
for a failing match pattern the policy name is absent. -/
theorem compile_error_aborts_run :
    ∀ (E : RegexEngine) (backend : Backend) (config : LoadConfigResponse)
      (files : List String) (git_root : String) (fix : Bool) (e : String),
      compile_policies E config = Except.error e →
        run_check E backend config files git_root fix = Except.error e ∧
        ((∃ m ∈ config.policies,
            e = regexErrMsg m.match_pattern m.match_flags ∨
              ∃ p ∈ m.exclude_files,
                e = excludeErrMsg m.name ++ ": " ++ regexErrMsg p "i") ∨
          ∃ p ∈ config.exclude_files,
            e = globalExcludeErrMsg ++ ": " ++ regexErrMsg p "i") := by
  intro E backend config files git_root fix e h
  constructor
  · simp [run_check, h, Bind.bind, Except.bind]
  · rcases compile_policies_error E config e h with ⟨m, hm, hme⟩ | hglob
    · rcases compile_policy_error E m e hme with h1 | ⟨p, hp, hpe⟩
      · exact Or.inl ⟨m, hm, Or.inl h1⟩
      · exact Or.inl ⟨m, hm, Or.inr ⟨p, hp, hpe⟩⟩
    · exact Or.inr hglob

/-- Witness for C5's amended theorem, at `badConfig` under `testEngine`. -/
theorem compile_error_aborts_run_witness :
    (compile_policies testEngine badConfig =
      Except.error "Failed to compile regex pattern: ( (flags: )") ∧
    (run_check testEngine okBackend badConfig ["x"] "/repo" false =
        Except.error "Failed to compile regex pattern: ( (flags: )" ∧
      ((∃ m ∈ badConfig.policies,
          "Failed to compile regex pattern: ( (flags: )" =
              regexErrMsg m.match_pattern m.match_flags ∨
            ∃ p ∈ m.exclude_files,
              "Failed to compile regex pattern: ( (flags: )" =
                excludeErrMsg m.name ++ ": " ++ regexErrMsg p "i") ∨
        ∃ p ∈ badConfig.exclude_files,
          "Failed to compile regex pattern: ( (flags: )" =
            globalExcludeErrMsg ++ ": " ++ regexErrMsg p "i")) := by
  have h : compile_policies testEngine badConfig =
      Except.error "Failed to compile regex pattern: ( (flags: )" := by rfl
  exact ⟨h, compile_error_aborts_run testEngine okBackend badConfig ["x"]
    "/repo" false _ h⟩

/-- C7: the envelope check of `Sidecar::request` converts `ok=false` into a
propagated error — `Sidecar error: <error>` when the envelope carries one,
the generic no-message error otherwise — and never converts an `ok=true`
envelope into an error. -/
theorem envelope_ok_false_is_error :
    ∀ r : IpcResponse,
      (r.ok = false →
        envelope_check r = Except.error
          (match r.error with
           | some err => "Sidecar error: " ++ err
           | none => "Sidecar returned error with no message")) ∧
      (r.ok = true → envelope_check r = Except.ok r) := by
  intro r
  constructor
  · intro h
    cases he : r.error <;> simp [envelope_check, h, he]
  · intro h
    simp [envelope_check, h]

/-- Witness for C7: a failing envelope with a message, one without, and a
successful envelope. -/
theorem envelope_ok_false_is_error_witness :
    envelope_check { ok := false, error := some "boom", data := none } =
        Except.error "Sidecar error: boom" ∧
    envelope_check { ok := false, error := none, data := none } =
        Except.error "Sidecar returned error with no message" ∧
    envelope_check { ok := true, error := none, data := none } =
        Except.ok { ok := true, error := none, data := none } := by
  refine ⟨?_, ?_, ?_⟩
  · exact (envelope_ok_false_is_error
      { ok := false, error := some "boom", data := none }).1 rfl
  · exact (envelope_ok_false_is_error
      { ok := false, error := none, data := none }).1 rfl
  · exact (envelope_ok_false_is_error
      { ok := true, error := none, data := none }).2 rfl

/-- C8: in the single-file handler/resolver data handling, boolean `false`
response data yields a propagated unexpected-error, boolean `true` a pass,
and a successful `Failure` parse can only come from non-boolean data. -/
theorem handler_false_is_unexpected_error :
    parse_handler_data (JsonVal.bool false) =
        Except.error "Handler returned false (unexpected)" ∧
    parse_handler_data (JsonVal.bool true) =
        Except.ok (HandlerResult.Pass true) ∧
    parse_resolver_data (JsonVal.bool false) =
        Except.error "Resolver returned false (unexpected)" ∧
    parse_resolver_data (JsonVal.bool true) =
        Except.ok (HandlerResult.Pass true) ∧
    ∀ (d : JsonVal) (e : PolicyErrorResult),
      (parse_handler_data d = Except.ok (HandlerResult.Failure e) ∨
        parse_resolver_data d = Except.ok (HandlerResult.Failure e)) →
        d.isBool = false := by
  refine ⟨rfl, rfl, rfl, rfl, ?_⟩
  intro d e h
  cases d with
  | bool b =>
    rcases h with h | h <;> cases b <;>
      simp [parse_handler_data, parse_resolver_data] at h
  | null => rfl
  | num n => rfl
  | str s => rfl
  | arr elems => rfl
  | obj fields => rfl

/-- Witness for C8: the error object `errObj` parses to a `Failure` and is
not a boolean. -/
theorem handler_false_is_unexpected_error_witness :
    (parse_handler_data errObj = Except.ok (HandlerResult.Failure
        { error := some "x", error_messages := none, name := none,
          file := none, fixable := none, fixed := none,
          manual_fix := none }) ∨
      parse_resolver_data errObj = Except.ok (HandlerResult.Failure
        { error := some "x", error_messages := none, name := none,
          file := none, fixable := none, fixed := none,
          manual_fix := none })) ∧
    errObj.isBool = false := by
  have h : parse_handler_data errObj = Except.ok (HandlerResult.Failure
      { error := some "x", error_messages := none, name := none,
        file := none, fixable := none, fixed := none,
        manual_fix := none }) := by rfl
  exact ⟨Or.inl h, handler_false_is_unexpected_error.2.2.2.2 errObj _ (Or.inl h)⟩

/-- C9: the embedded-backend drain of the pending-job queue terminates for
every job-queue behaviour — it either completes (the queue empties or the
runtime reports no pending job) or fails with the fatal 500000-iteration
ceiling error — and a job that throws does not stop the drain: in the
concrete queue `[jobError, ranJob]` the job after the throwing one is still
executed and the drain completes. -/
theorem drain_terminates_or_hits_ceiling :
    (∀ (S : Type) (pending : S → Bool) (step : S → JobOutcome × S) (s : S),
      (∃ s2, call_js_batch_drain pending step s = Except.ok s2) ∨
        call_js_batch_drain pending step s = Except.error (drainErrMsg 500000)) ∧
    call_js_batch_drain queuePending queueStep
        [JobOutcome.jobError, JobOutcome.ranJob] = Except.ok [] := by
  constructor
  · intro S pending step s
    exact drain_go_dichotomy pending step 500000 0 s
  · rw [call_js_batch_drain, drain_go]
    norm_num [queuePending, queueStep]
    rw [drain_go]
    norm_num [queuePending, queueStep]
    rw [drain_go]
    norm_num [queuePending, queueStep]

end Repopo
